import Mathlib

/-!
# DreamLog: the dream-log card component

A shallow embedding of `client/src/components/DreamLog.js`, the React function
component that turns one dream-log record into a card, followed by the
properties of the component stated in the specification.

The component is a JavaScript function of one value, `log`.  It reads that value
with property accesses, which throw a `TypeError` on `undefined` and `null`, and
it calls the `uuid` service once for every tag it renders.  The embedding keeps
all three aspects:

* `JSValue` is the value the component receives, objects being lists of keyed
  properties, so that the *names* under which the component reads a record are
  part of the model;
* a run ends in `Except Fault`, with the element tree or with the fault that
  interrupted the evaluation;
* the `uuid` service is the stream `uuid : Nat → String` of the tokens it hands
  out, call after call; a run starts after some number of calls and returns,
  with the tree, the number of calls made when it ends.
-/

namespace DreamLogger

/-! ## Values -/

/-- The JavaScript values a record is made of.  Numbers are the integer-valued
ones (array and string lengths are of this kind); there are no function values,
a record being data. -/
inductive JSValue where
  | undefined
  | null
  | bool (b : Bool)
  | num (n : Int)
  | str (s : String)
  | arr (items : List JSValue)
  | obj (fields : List (String × JSValue))

/-- What interrupts an evaluation.  `typeError` is the JavaScript `TypeError`
(a property read on `undefined` or `null`, a call of something that is not a
function).  `unmodelled` is not a JavaScript fault: it marks an evaluation that
needs the `ToNumber` conversion of a string, an array or an object, which this
embedding does not contain. -/
inductive Fault where
  | typeError
  | unmodelled
  deriving DecidableEq, Repr

/-- The element tree a component returns: a value placed as a child (`{expr}`
or literal JSX text), an element with its type, `key`, remaining props and
children, or an array of nodes placed as one child. -/
inductive VNode where
  | value (v : JSValue)
  | element (type : String) (key : Option String) (props : List (String × JSValue))
      (children : List VNode)
  | array (items : List VNode)

/-- Values on which a property read throws: `undefined` and `null`. -/
def JSValue.isNullish : JSValue → Bool
  | .undefined => true
  | .null => true
  | _ => false

/-- The conversion `ToBoolean`. -/
def JSValue.truthy : JSValue → Bool
  | .undefined => false
  | .null => false
  | .bool b => b
  | .num n => n != 0
  | .str s => s != ""
  | .arr _ => true
  | .obj _ => true

/-- Number of UTF-16 code units of a string, the `length` of a JavaScript
string. -/
def utf16Length (s : String) : Nat :=
  s.toList.foldl (fun acc c => acc + (if c.val.toNat < 65536 then 1 else 2)) 0

/-- Property read `v[key]` on a value that is neither `undefined` nor `null`,
for the keys the component reads (`title`, `published_at`, `text_content`,
`user`, `username`, `tags`, `name`, `length`): an object yields its property of
that name (the first entry of the list under that name) or `undefined`, an
array and a string have a `length`, and every other read yields `undefined`. -/
def JSValue.prop (v : JSValue) (key : String) : JSValue :=
  match v with
  | .obj fields => (fields.lookup key).getD .undefined
  | .arr items => if key = "length" then .num items.length else .undefined
  | .str s => if key = "length" then .num (utf16Length s) else .undefined
  | _ => .undefined

/-- Property read `v.key` or `v["key"]`: a `TypeError` on `undefined` and
`null`, the property otherwise. -/
def getProp (v : JSValue) (key : String) : Except Fault JSValue :=
  if v.isNullish then .error .typeError else .ok (v.prop key)

/-- The comparison `v > 0`.  The operand is converted with `ToNumber`:
`undefined` gives `NaN` and `null` gives `0`, neither of which is greater than
`0`; `true` gives `1` and `false` gives `0`. -/
def gtZero : JSValue → Except Fault Bool
  | .undefined => .ok false
  | .null => .ok false
  | .bool b => .ok b
  | .num n => .ok (decide (0 < n))
  | .str _ => .error .unmodelled
  | .arr _ => .error .unmodelled
  | .obj _ => .error .unmodelled

/-! ## The component -/

/-- An element without a `key`. -/
def el (type : String) (props : List (String × JSValue)) (children : List VNode) : VNode :=
  .element type none props children

/-- The callback of `log.tags.map` (lines 23-27) run over the tags in order:
`<Label key={uuid()} color="blue">{tag.name}</Label>`, one call of `uuid` for
each tag.  `n` is the number of calls of `uuid` made so far, and the result
carries the number of calls made when the last tag is done. -/
def mapTags (uuid : Nat → String) : List JSValue → Nat → Except Fault (List VNode × Nat)
  | [], n => pure ([], n)
  | tag :: rest, n => do
    let key := uuid n
    let name ← getProp tag "name"
    let (chips, m) ← mapTags uuid rest (n + 1)
    pure (.element "Label" (some key) [("color", .str "blue")] [.value name] :: chips, m)

/-- The method call `tags.map(callback)`: arrays have the method, and on every
other value `tags.map` is not a function. -/
def callMap (uuid : Nat → String) (tags : JSValue) (n : Nat) : Except Fault (VNode × Nat) :=
  match tags with
  | .arr items => do
    let (chips, m) ← mapTags uuid items n
    pure (.array chips, m)
  | _ => throw .typeError

/-- The text shown in place of the chips (line 28). -/
def noTags : String := "No tags available"

/-- The condition of line 22, `log.tags && log.tags.length > 0`, as the
conditional operator takes it: when `log.tags` is falsy the `&&` yields that
falsy value, otherwise it yields the result of the comparison. -/
def tagsCond (log : JSValue) : Except Fault Bool := do
  let tags ← getProp log "tags"
  if tags.truthy then
    let tags' ← getProp log "tags"
    let length ← getProp tags' "length"
    gtZero length
  else
    pure false

/-- The expression of lines 22-28,
`log.tags && log.tags.length > 0 ? log.tags.map(...) : "No tags available"`. -/
def tagsExpr (uuid : Nat → String) (log : JSValue) (n : Nat) : Except Fault (VNode × Nat) := do
  if ← tagsCond log then
    let tags ← getProp log "tags"
    callMap uuid tags n
  else
    pure (.value (.str noTags), n)

/-- The component `DreamLog({ log })`, lines 5-33.  The expressions are
evaluated in the order of the source.  `n` is the number of calls of `uuid`
made before the run; a run that is not interrupted returns the card and the
number of calls made after it. -/
def DreamLog (uuid : Nat → String) (log : JSValue) (n : Nat) : Except Fault (VNode × Nat) := do
  let title ← getProp log "title"
  let publishedAt ← getProp log "published_at"
  let textContent ← getProp log "text_content"
  let user ← getProp log "user"
  let username ← getProp user "username"
  let (tagChild, m) ← tagsExpr uuid log n
  pure (el "Card" [] [
    el "Card.Content" [] [
      el "Card.Header" [] [.value title],
      el "Card.Meta" [] [el "span" [("className", .str "date")] [.value publishedAt]],
      el "Card.Description" [] [.value textContent]],
    el "Card.Content" [("extra", .bool true)] [
      el "Icon" [("name", .str "user")] [],
      .value username],
    el "Card.Content" [("extra", .bool true)] [
      el "div" [] [
        el "strong" [] [.value (.str "Tags: ")],
        tagChild]]], m)

/-! ## Observations on an element tree -/

/-- Children of a node. -/
def VNode.children : VNode → List VNode
  | .value _ => []
  | .element _ _ _ children => children
  | .array items => items

/-- The `key` of an element. -/
def VNode.key : VNode → Option String
  | .element _ key _ _ => key
  | _ => none

/-- The props of an element, `key` apart. -/
def VNode.props : VNode → List (String × JSValue)
  | .element _ _ props _ => props
  | _ => []

/-- The tag region of a card: the `div` of line 20, first child of the third
`Card.Content`. -/
def tagRegion (card : VNode) : Option VNode :=
  card.children[2]? >>= fun content => content.children[0]?

mutual
/-- The chips of a tree: its `Label` elements, in document order. -/
def VNode.labels : VNode → List VNode
  | .value _ => []
  | .element type key props children =>
    if type = "Label" then .element type key props children :: labelsList children
    else labelsList children
  | .array items => labelsList items
/-- The chips of a list of nodes. -/
def labelsList : List VNode → List VNode
  | [] => []
  | v :: vs => v.labels ++ labelsList vs
end

mutual
/-- The values a tree displays: its value leaves, in document order. -/
def VNode.texts : VNode → List JSValue
  | .value v => [v]
  | .element _ _ _ children => textsList children
  | .array items => textsList items
/-- The values a list of nodes displays. -/
def textsList : List VNode → List JSValue
  | [] => []
  | v :: vs => v.texts ++ textsList vs
end

mutual
/-- The tree with the `key` of every element erased. -/
def VNode.eraseKeys : VNode → VNode
  | .value v => .value v
  | .element type _ props children => .element type none props (eraseKeysList children)
  | .array items => .array (eraseKeysList items)
/-- Erasure of the keys in a list of nodes. -/
def eraseKeysList : List VNode → List VNode
  | [] => []
  | v :: vs => v.eraseKeys :: eraseKeysList vs
end

/-- The emptiness test in the words of the specification:
`isEmpty(tags) = tags is absent OR tags.length == 0`. -/
def isEmpty (tags : JSValue) : Bool :=
  tags.isNullish ||
    (match tags.prop "length" with
     | .num n => n == 0
     | _ => false)

/-! ## Closed forms used in the statements -/

/-- The chip of one tag whose `key` is `key`. -/
def chip (key : String) (tag : JSValue) : VNode :=
  .element "Label" (some key) [("color", .str "blue")] [.value (tag.prop "name")]

/-- The chips of a sequence of tags when the `uuid` service has been called `n`
times before. -/
def chipList (uuid : Nat → String) : List JSValue → Nat → List VNode
  | [], _ => []
  | tag :: rest, n => chip (uuid n) tag :: chipList uuid rest (n + 1)

/-- The card of a record whose tag region holds `tagChild`. -/
def cardOf (log : JSValue) (tagChild : VNode) : VNode :=
  el "Card" [] [
    el "Card.Content" [] [
      el "Card.Header" [] [.value (log.prop "title")],
      el "Card.Meta" [] [el "span" [("className", .str "date")] [.value (log.prop "published_at")]],
      el "Card.Description" [] [.value (log.prop "text_content")]],
    el "Card.Content" [("extra", .bool true)] [
      el "Icon" [("name", .str "user")] [],
      .value ((log.prop "user").prop "username")],
    el "Card.Content" [("extra", .bool true)] [
      el "div" [] [
        el "strong" [] [.value (.str "Tags: ")],
        tagChild]]]

/-- Tags the component renders: absent, `null`, or an array none of whose
elements is `undefined` or `null`. -/
def TagsOk (tags : JSValue) : Prop :=
  tags = .undefined ∨ tags = .null ∨ ∃ items, tags = .arr items ∧ ∀ t ∈ items, t.isNullish = false

/-! ## Sample records -/

/-- A `uuid` service for the examples: the `n`-th token is `n` letters long. -/
def sampleUuid (n : Nat) : String := String.mk (List.replicate n 'u')

/-- Scenario A of the specification, written as the specification writes it,
with the properties `publishedAt`, `textContent` and `author`. -/
def scenarioA : JSValue :=
  .obj [("title", .str "Flying again"), ("publishedAt", .str "2024-01-02"),
    ("textContent", .str "I flew over the city"), ("author", .obj [("username", .str "ana")]),
    ("tags", .arr [.obj [("name", .str "flight")], .obj [("name", .str "city")]])]

/-- Scenario A under the property names the component reads: `published_at`,
`text_content` and `user`. -/
def scenarioACode : JSValue :=
  .obj [("title", .str "Flying again"), ("published_at", .str "2024-01-02"),
    ("text_content", .str "I flew over the city"), ("user", .obj [("username", .str "ana")]),
    ("tags", .arr [.obj [("name", .str "flight")], .obj [("name", .str "city")]])]

/-- Scenario B: a record with `tags: []`. -/
def scenarioB : JSValue :=
  .obj [("title", .str "Falling"), ("published_at", .str "2024-01-03"),
    ("text_content", .str "I fell"), ("user", .obj [("username", .str "ana")]),
    ("tags", .arr [])]

/-- Scenario C: the record of scenario B without a `tags` property. -/
def scenarioC : JSValue :=
  .obj [("title", .str "Falling"), ("published_at", .str "2024-01-03"),
    ("text_content", .str "I fell"), ("user", .obj [("username", .str "ana")])]

/-- Scenario D: a record with `tags: [{name: "lucid"}]`. -/
def scenarioD : JSValue :=
  .obj [("title", .str "Awake"), ("published_at", .str "2024-01-04"),
    ("text_content", .str "I knew I was dreaming"), ("user", .obj [("username", .str "ana")]),
    ("tags", .arr [.obj [("name", .str "lucid")]])]

/-- A record with two tags of the same name. -/
def twinTags : JSValue :=
  .obj [("title", .str "Again"), ("published_at", .str "2024-01-05"),
    ("text_content", .str "The same dream"), ("user", .obj [("username", .str "ana")]),
    ("tags", .arr [.obj [("name", .str "a")], .obj [("name", .str "a")]])]

/-- A record that has an author and a tag and nothing else: no title, no date,
no text, no username, no tag name. -/
def bareRecord : JSValue :=
  .obj [("user", .obj []), ("tags", .arr [.obj []])]

/-- A record without author. -/
def anonymous : JSValue :=
  .obj [("title", .str "Nobody"), ("published_at", .str "2024-01-06"),
    ("text_content", .str "No one was there"), ("tags", .arr [.obj [("name", .str "void")]])]

/-! ## Lemmas on the evaluation -/

theorem getProp_ok {v : JSValue} (h : v.isNullish = false) (key : String) :
    getProp v key = .ok (v.prop key) := by
  simp [getProp, h]

theorem getProp_nullish {v : JSValue} (h : v.isNullish = true) (key : String) :
    getProp v key = .error .typeError := by
  simp [getProp, h]

theorem mapTags_ok (uuid : Nat → String) (items : List JSValue)
    (h : ∀ t ∈ items, t.isNullish = false) (n : Nat) :
    mapTags uuid items n = .ok (chipList uuid items n, n + items.length) := by
  induction items generalizing n with
  | nil => rfl
  | cons t ts ih =>
    have ht : t.isNullish = false := h t (List.mem_cons_self _ _)
    have hts : ∀ u ∈ ts, u.isNullish = false := fun u hu => h u (List.mem_cons_of_mem _ hu)
    simp only [mapTags, getProp_ok ht, ih hts, bind, Except.bind, pure, Except.pure, chipList,
      chip, List.length_cons]
    congr 2
    omega

theorem tagsCond_absent {log : JSValue} (hlog : log.isNullish = false)
    (htags : log.prop "tags" = .undefined ∨ log.prop "tags" = .null ∨ log.prop "tags" = .arr []) :
    tagsCond log = .ok false := by
  simp only [tagsCond, getProp_ok hlog, bind, Except.bind]
  rcases htags with h | h | h <;> rw [h] <;> rfl

theorem tagsCond_present {log : JSValue} (hlog : log.isNullish = false) {items : List JSValue}
    (htags : log.prop "tags" = .arr items) (hne : items ≠ []) :
    tagsCond log = .ok true := by
  simp only [tagsCond, getProp_ok hlog, bind, Except.bind, htags]
  cases items with
  | nil => exact absurd rfl hne
  | cons t ts =>
    simp [JSValue.truthy, getProp, JSValue.isNullish, JSValue.prop, gtZero]

theorem DreamLog_of_tagsExpr (uuid : Nat → String) {log : JSValue} (n : Nat)
    (hlog : log.isNullish = false) (huser : (log.prop "user").isNullish = false)
    {tagChild : VNode} {m : Nat} (h : tagsExpr uuid log n = .ok (tagChild, m)) :
    DreamLog uuid log n = .ok (cardOf log tagChild, m) := by
  simp only [DreamLog, getProp_ok hlog, bind, Except.bind, getProp_ok huser, h]
  rfl

theorem DreamLog_absent (uuid : Nat → String) {log : JSValue} (n : Nat)
    (hlog : log.isNullish = false) (huser : (log.prop "user").isNullish = false)
    (htags : log.prop "tags" = .undefined ∨ log.prop "tags" = .null ∨ log.prop "tags" = .arr []) :
    DreamLog uuid log n = .ok (cardOf log (.value (.str noTags)), n) := by
  apply DreamLog_of_tagsExpr uuid n hlog huser
  simp only [tagsExpr, tagsCond_absent hlog htags, bind, Except.bind]
  rfl

theorem DreamLog_present (uuid : Nat → String) {log : JSValue} (n : Nat)
    (hlog : log.isNullish = false) (huser : (log.prop "user").isNullish = false)
    {items : List JSValue} (htags : log.prop "tags" = .arr items) (hne : items ≠ [])
    (hitems : ∀ t ∈ items, t.isNullish = false) :
    DreamLog uuid log n = .ok (cardOf log (.array (chipList uuid items n)), n + items.length) := by
  apply DreamLog_of_tagsExpr uuid n hlog huser
  simp only [tagsExpr, tagsCond_present hlog htags hne, bind, Except.bind, getProp_ok hlog,
    htags, callMap, mapTags_ok uuid items hitems n]
  rfl

theorem DreamLog_no_user (uuid : Nat → String) {log : JSValue} (n : Nat)
    (hlog : log.isNullish = false) (huser : (log.prop "user").isNullish = true) :
    DreamLog uuid log n = .error .typeError := by
  simp only [DreamLog, getProp_ok hlog, bind, Except.bind, getProp_nullish huser]

theorem DreamLog_tagsOk (uuid : Nat → String) {log : JSValue} (n : Nat)
    (hlog : log.isNullish = false) (huser : (log.prop "user").isNullish = false)
    (htags : TagsOk (log.prop "tags")) :
    ∃ tagChild m, DreamLog uuid log n = .ok (cardOf log tagChild, m) := by
  rcases htags with h | h | ⟨items, h, hitems⟩
  · exact ⟨_, _, DreamLog_absent uuid n hlog huser (Or.inl h)⟩
  · exact ⟨_, _, DreamLog_absent uuid n hlog huser (Or.inr (Or.inl h))⟩
  · by_cases hne : items = []
    · subst hne
      exact ⟨_, _, DreamLog_absent uuid n hlog huser (Or.inr (Or.inr h))⟩
    · exact ⟨_, _, DreamLog_present uuid n hlog huser h hne hitems⟩

theorem length_chipList (uuid : Nat → String) (items : List JSValue) (n : Nat) :
    (chipList uuid items n).length = items.length := by
  induction items generalizing n with
  | nil => rfl
  | cons t ts ih => simp [chipList, ih]

theorem getElem?_chipList (uuid : Nat → String) (items : List JSValue) (n i : Nat) :
    (chipList uuid items n)[i]? = (items[i]?).map (chip (uuid (n + i))) := by
  induction items generalizing n i with
  | nil => simp [chipList]
  | cons t ts ih =>
    cases i with
    | zero => simp [chipList]
    | succ j =>
      simp only [chipList, List.getElem?_cons_succ, ih]
      rw [show n + 1 + j = n + (j + 1) by omega]

theorem keys_chipList (uuid : Nat → String) (items : List JSValue) (n : Nat) :
    (chipList uuid items n).map VNode.key
      = (List.range items.length).map (fun i => some (uuid (n + i))) := by
  induction items generalizing n with
  | nil => rfl
  | cons t ts ih =>
    simp only [chipList, List.map_cons, List.length_cons, List.range_succ_eq_map, ih,
      List.map_map]
    refine congrArg₂ _ rfl (List.map_congr_left fun i _ => ?_)
    simp only [Function.comp, show n + 1 + i = n + (i + 1) by omega]

theorem props_of_mem_chipList (uuid : Nat → String) (items : List JSValue) (n : Nat)
    (c : VNode) (hc : c ∈ chipList uuid items n) : c.props = [("color", .str "blue")] := by
  induction items generalizing n with
  | nil => simp [chipList] at hc
  | cons t ts ih =>
    simp only [chipList, List.mem_cons] at hc
    rcases hc with rfl | hc
    · rfl
    · exact ih (n + 1) hc

theorem labelsList_chipList (uuid : Nat → String) (items : List JSValue) (n : Nat) :
    labelsList (chipList uuid items n) = chipList uuid items n := by
  induction items generalizing n with
  | nil => rfl
  | cons t ts ih => simp [chipList, chip, labelsList, VNode.labels, ih]

theorem labels_cardOf_chipList (log : JSValue) (uuid : Nat → String) (items : List JSValue)
    (n : Nat) : (cardOf log (.array (chipList uuid items n))).labels = chipList uuid items n := by
  have h : (cardOf log (.array (chipList uuid items n))).labels
      = labelsList (chipList uuid items n) := by
    simp [cardOf, el, VNode.labels, labelsList]
  rw [h, labelsList_chipList]

theorem labels_cardOf_value (log : JSValue) (v : JSValue) :
    (cardOf log (.value v)).labels = [] := by
  simp [cardOf, el, VNode.labels, labelsList]

theorem textsList_chipList (uuid : Nat → String) (items : List JSValue) (n : Nat) :
    textsList (chipList uuid items n) = items.map (fun t => t.prop "name") := by
  induction items generalizing n with
  | nil => rfl
  | cons t ts ih => simp [chipList, chip, textsList, VNode.texts, ih]

theorem texts_cardOf (log : JSValue) (tagChild : VNode) :
    (cardOf log tagChild).texts
      = [log.prop "title", log.prop "published_at", log.prop "text_content",
          (log.prop "user").prop "username", .str "Tags: "] ++ tagChild.texts := by
  simp [cardOf, el, VNode.texts, textsList]

theorem tagsCond_eq_not_isEmpty {log : JSValue} (hlog : log.isNullish = false)
    (hshape : (log.prop "tags").isNullish = true ∨ ∃ items, log.prop "tags" = .arr items) :
    tagsCond log = .ok (!isEmpty (log.prop "tags")) := by
  rcases hshape with h | ⟨items, h⟩
  · have habs : log.prop "tags" = .undefined ∨ log.prop "tags" = .null ∨
        log.prop "tags" = .arr [] := by
      cases ht : log.prop "tags" <;> simp_all [JSValue.isNullish]
    rw [tagsCond_absent hlog habs]
    simp [isEmpty, h]
  · cases items with
    | nil =>
      rw [tagsCond_absent hlog (Or.inr (Or.inr h)), h]
      rfl
    | cons t ts =>
      rw [tagsCond_present hlog h (List.cons_ne_nil _ _), h]
      simp [isEmpty, JSValue.isNullish, JSValue.prop]
      omega

theorem tagRegion_cardOf (log : JSValue) (tagChild : VNode) :
    tagRegion (cardOf log tagChild)
      = some (el "div" [] [el "strong" [] [.value (.str "Tags: ")], tagChild]) := by
  rfl

theorem eraseKeys_mapTags (u1 u2 : Nat → String) (items : List JSValue) (n1 n2 : Nat) :
    (mapTags u1 items n1).map (fun r => eraseKeysList r.1)
      = (mapTags u2 items n2).map (fun r => eraseKeysList r.1) := by
  induction items generalizing n1 n2 with
  | nil => rfl
  | cons t ts ih =>
    simp only [mapTags, bind, Except.bind]
    cases getProp t "name" with
    | error e => rfl
    | ok name =>
      have h := ih (n1 + 1) (n2 + 1)
      cases h1 : mapTags u1 ts (n1 + 1) <;> cases h2 : mapTags u2 ts (n2 + 1) <;>
        simp_all [Except.map, pure, Except.pure, VNode.eraseKeys, eraseKeysList]

theorem eraseKeys_callMap (u1 u2 : Nat → String) (tags : JSValue) (n1 n2 : Nat) :
    (callMap u1 tags n1).map (fun r => r.1.eraseKeys)
      = (callMap u2 tags n2).map (fun r => r.1.eraseKeys) := by
  cases tags with
  | arr items =>
    have h := eraseKeys_mapTags u1 u2 items n1 n2
    simp only [callMap, bind, Except.bind]
    cases h1 : mapTags u1 items n1 <;> cases h2 : mapTags u2 items n2 <;>
      simp_all [Except.map, pure, Except.pure, VNode.eraseKeys]
  | _ => rfl

theorem eraseKeys_tagsExpr (u1 u2 : Nat → String) (log : JSValue) (n1 n2 : Nat) :
    (tagsExpr u1 log n1).map (fun r => r.1.eraseKeys)
      = (tagsExpr u2 log n2).map (fun r => r.1.eraseKeys) := by
  simp only [tagsExpr, bind, Except.bind]
  cases tagsCond log with
  | error e => rfl
  | ok b =>
    cases b with
    | false => rfl
    | true =>
      cases getProp log "tags" with
      | error e => rfl
      | ok tags => exact eraseKeys_callMap u1 u2 tags n1 n2

theorem sampleUuid_injective : Function.Injective sampleUuid := by
  intro a b h
  have h' : List.replicate a 'u' = List.replicate b 'u' := congrArg String.data h
  simpa using congrArg List.length h'

/-! ## The properties of the specification

In the statements a *record* is a value `log` that is neither `undefined` nor
`null`; its author is the property `user`, its date the property
`published_at`, its text the property `text_content`, the names under which the
component reads them.  A *sequence of tags* is an array none of whose elements
is `undefined` or `null`. -/

/-- C1. For a record whose tags are a non-empty sequence of length `N`, the run
returns a card whose tag region holds the label `Tags: ` and an array of chips;
the chips of the card are exactly those, there are `N` of them, and the `i`-th
is a `Label` whose only child is the `name` of the `i`-th tag.  The fallback
text is not a child of the tag region: the values the card displays are the
title, the date, the text, the username, the label `Tags: ` and the names of
the tags in their order, and nothing else. -/
theorem chips_of_nonempty_tags (uuid : Nat → String) (log : JSValue) (n : Nat)
    (items : List JSValue)
    (hlog : log.isNullish = false) (huser : (log.prop "user").isNullish = false)
    (htags : log.prop "tags" = .arr items) (hne : items ≠ [])
    (hitems : ∀ t ∈ items, t.isNullish = false) :
    ∃ tree chips m,
      DreamLog uuid log n = .ok (tree, m) ∧
      tagRegion tree
        = some (el "div" [] [el "strong" [] [.value (.str "Tags: ")], .array chips]) ∧
      tree.labels = chips ∧
      chips.length = items.length ∧
      (∀ i (h : i < items.length), ∃ key,
        chips[i]? = some (.element "Label" (some key) [("color", .str "blue")]
          [.value (items[i].prop "name")])) ∧
      (∀ region, tagRegion tree = some region →
        VNode.value (.str "No tags available") ∉ region.children) ∧
      tree.texts
        = [log.prop "title", log.prop "published_at", log.prop "text_content",
            (log.prop "user").prop "username", .str "Tags: "]
          ++ items.map (fun t => t.prop "name") := by
  refine ⟨cardOf log (.array (chipList uuid items n)), chipList uuid items n, _,
    DreamLog_present uuid n hlog huser htags hne hitems, tagRegion_cardOf _ _,
    labels_cardOf_chipList _ _ _ _, length_chipList uuid items n, ?_, ?_, ?_⟩
  · intro i h
    refine ⟨uuid (n + i), ?_⟩
    rw [getElem?_chipList, List.getElem?_eq_getElem h]
    rfl
  · intro region hregion
    rw [tagRegion_cardOf] at hregion
    cases hregion
    simp [VNode.children, el]
  · rw [texts_cardOf, VNode.texts, textsList_chipList]

/-- Scenario D is an instance of C1: one chip, `lucid`, and no fallback text. -/
theorem chips_of_nonempty_tags_witness :
    ∃ tree chips m,
      DreamLog sampleUuid scenarioD 0 = .ok (tree, m) ∧
      tagRegion tree
        = some (el "div" [] [el "strong" [] [.value (.str "Tags: ")], .array chips]) ∧
      tree.labels = chips ∧
      chips.length = [JSValue.obj [("name", .str "lucid")]].length ∧
      (∀ i (h : i < [JSValue.obj [("name", .str "lucid")]].length), ∃ key,
        chips[i]? = some (.element "Label" (some key) [("color", .str "blue")]
          [.value ([JSValue.obj [("name", .str "lucid")]][i].prop "name")])) ∧
      (∀ region, tagRegion tree = some region →
        VNode.value (.str "No tags available") ∉ region.children) ∧
      tree.texts
        = [scenarioD.prop "title", scenarioD.prop "published_at",
            scenarioD.prop "text_content", (scenarioD.prop "user").prop "username",
            .str "Tags: "]
          ++ [JSValue.obj [("name", .str "lucid")]].map (fun t => t.prop "name") :=
  chips_of_nonempty_tags sampleUuid scenarioD 0 [.obj [("name", .str "lucid")]] rfl rfl rfl
    (List.cons_ne_nil _ _) (by simp [JSValue.isNullish])

/-- C2. For a record whose tags are absent, `null` or the empty sequence, the
run calls `uuid` not at all and returns a card whose tag region holds the label
`Tags: ` and the text `No tags available`; the card has no chip, and after the
label it displays that text and nothing else.  A second record that carries the
same title, date, text and author, and whose tags are absent, `null` or empty
as well, gives the very same result.  These are the tags on which `isEmpty`
holds, and on every record whose tags are absent, `null` or a sequence the
condition of the component is the negation of `isEmpty`. -/
theorem fallback_of_absent_tags (uuid : Nat → String) (log log' : JSValue) (n : Nat)
    (hlog : log.isNullish = false) (huser : (log.prop "user").isNullish = false)
    (htags : log.prop "tags" = .undefined ∨ log.prop "tags" = .null ∨ log.prop "tags" = .arr [])
    (hlog' : log'.isNullish = false)
    (hsame : ∀ key ∈ ["title", "published_at", "text_content", "user"],
      log'.prop key = log.prop key)
    (htags' : log'.prop "tags" = .undefined ∨ log'.prop "tags" = .null ∨
      log'.prop "tags" = .arr []) :
    (∃ tree,
      DreamLog uuid log n = .ok (tree, n) ∧
      tagRegion tree = some (el "div" [] [el "strong" [] [.value (.str "Tags: ")],
        .value (.str "No tags available")]) ∧
      tree.labels = [] ∧
      tree.texts
        = [log.prop "title", log.prop "published_at", log.prop "text_content",
            (log.prop "user").prop "username", .str "Tags: ", .str "No tags available"]) ∧
    DreamLog uuid log' n = DreamLog uuid log n ∧
    isEmpty (log.prop "tags") = true ∧
    (∀ r : JSValue, r.isNullish = false →
      ((r.prop "tags").isNullish = true ∨ ∃ items, r.prop "tags" = .arr items) →
      tagsCond r = .ok (!isEmpty (r.prop "tags"))) := by
  have huser' : (log'.prop "user").isNullish = false := by
    rw [hsame "user" (by simp)]
    exact huser
  refine ⟨⟨cardOf log (.value (.str noTags)), DreamLog_absent uuid n hlog huser htags,
    tagRegion_cardOf _ _, labels_cardOf_value _ _, texts_cardOf _ _⟩, ?_, ?_, ?_⟩
  · rw [DreamLog_absent uuid n hlog huser htags, DreamLog_absent uuid n hlog' huser' htags']
    simp only [cardOf, hsame "title" (by simp), hsame "published_at" (by simp),
      hsame "text_content" (by simp), hsame "user" (by simp)]
  · rcases htags with h | h | h <;> rw [h] <;> rfl
  · intro r hr hshape
    exact tagsCond_eq_not_isEmpty hr hshape

/-- Scenarios B and C are an instance of C2: `tags: []` and no `tags` at all
give the same card. -/
theorem fallback_of_absent_tags_witness :
    (∃ tree,
      DreamLog sampleUuid scenarioB 0 = .ok (tree, 0) ∧
      tagRegion tree = some (el "div" [] [el "strong" [] [.value (.str "Tags: ")],
        .value (.str "No tags available")]) ∧
      tree.labels = [] ∧
      tree.texts
        = [scenarioB.prop "title", scenarioB.prop "published_at",
            scenarioB.prop "text_content", (scenarioB.prop "user").prop "username",
            .str "Tags: ", .str "No tags available"]) ∧
    DreamLog sampleUuid scenarioC 0 = DreamLog sampleUuid scenarioB 0 ∧
    isEmpty (scenarioB.prop "tags") = true ∧
    (∀ r : JSValue, r.isNullish = false →
      ((r.prop "tags").isNullish = true ∨ ∃ items, r.prop "tags" = .arr items) →
      tagsCond r = .ok (!isEmpty (r.prop "tags"))) :=
  fallback_of_absent_tags sampleUuid scenarioB scenarioC 0 rfl rfl (Or.inr (Or.inr rfl)) rfl
    (by
      intro key hkey
      simp only [List.mem_cons, List.mem_singleton, List.not_mem_nil, or_false] at hkey
      rcases hkey with rfl | rfl | rfl | rfl <;> rfl)
    (Or.inl rfl)

/-- C3. For a record with an author whose tags are absent, `null` or a
sequence of tags, the run returns a card of three `Card.Content` in this order:
the header showing `title`, the date `published_at` beneath it in a `span` of
class `date` and the description showing `text_content`; the user icon followed
by the author's `username`; the tag region labelled `Tags: `.  The values are
passed through as they are, and the first two `Card.Content` do not depend on
the tags. -/
theorem card_layout (uuid : Nat → String) (log : JSValue) (n : Nat)
    (hlog : log.isNullish = false) (huser : (log.prop "user").isNullish = false)
    (htags : TagsOk (log.prop "tags")) :
    ∃ tagChild m,
      DreamLog uuid log n =
        .ok (.element "Card" none [] [
          .element "Card.Content" none [] [
            .element "Card.Header" none [] [.value (log.prop "title")],
            .element "Card.Meta" none [] [
              .element "span" none [("className", .str "date")]
                [.value (log.prop "published_at")]],
            .element "Card.Description" none [] [.value (log.prop "text_content")]],
          .element "Card.Content" none [("extra", .bool true)] [
            .element "Icon" none [("name", .str "user")] [],
            .value ((log.prop "user").prop "username")],
          .element "Card.Content" none [("extra", .bool true)] [
            .element "div" none [] [
              .element "strong" none [] [.value (.str "Tags: ")],
              tagChild]]], m) :=
  DreamLog_tagsOk uuid n hlog huser htags

/-- The record of scenario D has the layout of C3. -/
theorem card_layout_witness :
    ∃ tagChild m,
      DreamLog sampleUuid scenarioD 0 =
        .ok (.element "Card" none [] [
          .element "Card.Content" none [] [
            .element "Card.Header" none [] [.value (scenarioD.prop "title")],
            .element "Card.Meta" none [] [
              .element "span" none [("className", .str "date")]
                [.value (scenarioD.prop "published_at")]],
            .element "Card.Description" none [] [.value (scenarioD.prop "text_content")]],
          .element "Card.Content" none [("extra", .bool true)] [
            .element "Icon" none [("name", .str "user")] [],
            .value ((scenarioD.prop "user").prop "username")],
          .element "Card.Content" none [("extra", .bool true)] [
            .element "div" none [] [
              .element "strong" none [] [.value (.str "Tags: ")],
              tagChild]]], m) :=
  card_layout sampleUuid scenarioD 0 rfl rfl
    (Or.inr (Or.inr ⟨_, rfl, by simp [JSValue.isNullish]⟩))

/-- C4. Two runs on the same value, with any two `uuid` services that have
been called any number of times before, return the same thing once the keys are
erased: the same tree, or the same fault. -/
theorem idempotent_modulo_keys (uuid₁ uuid₂ : Nat → String) (log : JSValue) (n₁ n₂ : Nat) :
    (DreamLog uuid₁ log n₁).map (fun r => r.1.eraseKeys)
      = (DreamLog uuid₂ log n₂).map (fun r => r.1.eraseKeys) := by
  simp only [DreamLog, bind, Except.bind]
  cases getProp log "title" with
  | error e => rfl
  | ok title =>
    dsimp only
    cases getProp log "published_at" with
    | error e => rfl
    | ok publishedAt =>
      dsimp only
      cases getProp log "text_content" with
      | error e => rfl
      | ok textContent =>
        dsimp only
        cases getProp log "user" with
        | error e => rfl
        | ok user =>
          dsimp only
          cases getProp user "username" with
          | error e => rfl
          | ok username =>
            have h := eraseKeys_tagsExpr uuid₁ uuid₂ log n₁ n₂
            cases h1 : tagsExpr uuid₁ log n₁ <;> cases h2 : tagsExpr uuid₂ log n₂ <;>
              simp_all [Except.map, pure, Except.pure, VNode.eraseKeys, eraseKeysList, el]

/-- C5. On a record whose tags are absent, `null` or a sequence of tags, the
run ends in a fault exactly when the author is absent (`undefined` or `null`).
With an author the run returns the whole card, whether or not the title, the
date, the text, the username or a tag name is there: the card shows what the
reads of `title`, `published_at`, `text_content`, `username` return, with the
fallback text when there is no tag and otherwise one chip for each tag, the
`i`-th showing what the read of the `name` of the `i`-th tag returns; and the
read of a property that an object does not have returns `undefined`.  Without
an author the run throws a `TypeError`, and there is no tree. -/
theorem faults_iff_author_absent (uuid : Nat → String) (log : JSValue) (n : Nat)
    (hlog : log.isNullish = false) (htags : TagsOk (log.prop "tags")) :
    ((∃ e, DreamLog uuid log n = .error e) ↔ (log.prop "user").isNullish = true) ∧
    ((log.prop "user").isNullish = false →
      ∃ tagChild m, DreamLog uuid log n = .ok (cardOf log tagChild, m)) ∧
    ((log.prop "user").isNullish = true → DreamLog uuid log n = .error .typeError) ∧
    ((log.prop "user").isNullish = false →
      (log.prop "tags" = .undefined ∨ log.prop "tags" = .null ∨ log.prop "tags" = .arr []) →
      DreamLog uuid log n =
        .ok (.element "Card" none [] [
          .element "Card.Content" none [] [
            .element "Card.Header" none [] [.value (log.prop "title")],
            .element "Card.Meta" none [] [
              .element "span" none [("className", .str "date")]
                [.value (log.prop "published_at")]],
            .element "Card.Description" none [] [.value (log.prop "text_content")]],
          .element "Card.Content" none [("extra", .bool true)] [
            .element "Icon" none [("name", .str "user")] [],
            .value ((log.prop "user").prop "username")],
          .element "Card.Content" none [("extra", .bool true)] [
            .element "div" none [] [
              .element "strong" none [] [.value (.str "Tags: ")],
              .value (.str "No tags available")]]], n)) ∧
    ((log.prop "user").isNullish = false →
      ∀ items, log.prop "tags" = .arr items → items ≠ [] →
      ∃ chips,
        DreamLog uuid log n =
          .ok (.element "Card" none [] [
            .element "Card.Content" none [] [
              .element "Card.Header" none [] [.value (log.prop "title")],
              .element "Card.Meta" none [] [
                .element "span" none [("className", .str "date")]
                  [.value (log.prop "published_at")]],
              .element "Card.Description" none [] [.value (log.prop "text_content")]],
            .element "Card.Content" none [("extra", .bool true)] [
              .element "Icon" none [("name", .str "user")] [],
              .value ((log.prop "user").prop "username")],
            .element "Card.Content" none [("extra", .bool true)] [
              .element "div" none [] [
                .element "strong" none [] [.value (.str "Tags: ")],
                .array chips]]], n + items.length) ∧
        chips.length = items.length ∧
        (∀ i (h : i < items.length),
          chips[i]? = some (.element "Label" (some (uuid (n + i))) [("color", .str "blue")]
            [.value (items[i].prop "name")]))) ∧
    (∀ (fields : List (String × JSValue)) (key : String),
      fields.lookup key = none → (JSValue.obj fields).prop key = .undefined) := by
  refine ⟨⟨?_, ?_⟩, fun huser => DreamLog_tagsOk uuid n hlog huser htags,
    fun huser => DreamLog_no_user uuid n hlog huser,
    fun huser habsent => DreamLog_absent uuid n hlog huser habsent, ?_, ?_⟩
  · rintro ⟨e, he⟩
    cases huser : (log.prop "user").isNullish with
    | true => rfl
    | false =>
      obtain ⟨tagChild, m, h⟩ := DreamLog_tagsOk uuid n hlog huser htags
      rw [h] at he
      cases he
  · intro huser
    exact ⟨.typeError, DreamLog_no_user uuid n hlog huser⟩
  · intro huser items hitemsEq hne
    have hitems : ∀ t ∈ items, t.isNullish = false := by
      rcases htags with h | h | ⟨items', h, hall⟩
      · rw [h] at hitemsEq
        cases hitemsEq
      · rw [h] at hitemsEq
        cases hitemsEq
      · rw [h] at hitemsEq
        cases hitemsEq
        exact hall
    refine ⟨chipList uuid items n, DreamLog_present uuid n hlog huser hitemsEq hne hitems,
      length_chipList uuid items n, ?_⟩
    intro i h
    rw [getElem?_chipList, List.getElem?_eq_getElem h]
    rfl
  · intro fields key hnone
    simp [JSValue.prop, hnone]

/-- The two sides of C5.  A record with an author and a tag and nothing else is
rendered whole, with `undefined` in the place of the title, the date, the text,
the username and the name of the tag; a record without an author is not
rendered. -/
theorem faults_iff_author_absent_witness :
    DreamLog sampleUuid bareRecord 0 =
      .ok (.element "Card" none [] [
        .element "Card.Content" none [] [
          .element "Card.Header" none [] [.value .undefined],
          .element "Card.Meta" none [] [
            .element "span" none [("className", .str "date")] [.value .undefined]],
          .element "Card.Description" none [] [.value .undefined]],
        .element "Card.Content" none [("extra", .bool true)] [
          .element "Icon" none [("name", .str "user")] [],
          .value .undefined],
        .element "Card.Content" none [("extra", .bool true)] [
          .element "div" none [] [
            .element "strong" none [] [.value (.str "Tags: ")],
            .array [
              .element "Label" (some (sampleUuid 0)) [("color", .str "blue")]
                [.value .undefined]]]]], 1) ∧
    DreamLog sampleUuid anonymous 0 = .error .typeError := by
  have hbare : TagsOk (bareRecord.prop "tags") :=
    Or.inr (Or.inr ⟨[.obj []], rfl, by simp [JSValue.isNullish]⟩)
  have hanon : TagsOk (anonymous.prop "tags") :=
    Or.inr (Or.inr ⟨_, rfl, by simp [JSValue.isNullish]⟩)
  obtain ⟨chips, hrun, hlen, hchip⟩ :=
    (faults_iff_author_absent sampleUuid bareRecord 0 rfl hbare).2.2.2.2.1 rfl [.obj []] rfl
      (List.cons_ne_nil _ _)
  refine ⟨?_, (faults_iff_author_absent sampleUuid anonymous 0 rfl hanon).2.2.1 rfl⟩
  have h0 := hchip 0 (by decide)
  match chips, hlen, h0 with
  | [c], _, h0 =>
    simp only [List.getElem?_cons_zero, Option.some.injEq] at h0
    subst h0
    exact hrun

/-- C6 as stated fails.  The record of scenario A, written with the properties
`publishedAt`, `textContent` and `author`, is not rendered: the component reads
`log.user`, which this record does not have, and `log.user["username"]` throws. -/
theorem scenarioA_not_rendered :
    DreamLog sampleUuid scenarioA 0 = .error .typeError ∧
    ¬ ∃ (uuid : Nat → String) (n : Nat) (result : VNode × Nat),
      DreamLog uuid scenarioA n = .ok result := by
  refine ⟨rfl, ?_⟩
  rintro ⟨uuid, n, result, h⟩
  have hrun : DreamLog uuid scenarioA n = .error .typeError := rfl
  rw [hrun] at h
  cases h

/-- C6 amended.  The record of scenario A written with the properties the
component reads, `published_at`, `text_content` and `user`, is rendered as the
header `Flying again` over `2024-01-02`, the body `I flew over the city`, the
attribution `ana` and exactly two chips, `flight` then `city`. -/
theorem scenarioA_rendered (uuid : Nat → String) (n : Nat) :
    DreamLog uuid scenarioACode n =
      .ok (.element "Card" none [] [
        .element "Card.Content" none [] [
          .element "Card.Header" none [] [.value (.str "Flying again")],
          .element "Card.Meta" none [] [
            .element "span" none [("className", .str "date")] [.value (.str "2024-01-02")]],
          .element "Card.Description" none [] [.value (.str "I flew over the city")]],
        .element "Card.Content" none [("extra", .bool true)] [
          .element "Icon" none [("name", .str "user")] [],
          .value (.str "ana")],
        .element "Card.Content" none [("extra", .bool true)] [
          .element "div" none [] [
            .element "strong" none [] [.value (.str "Tags: ")],
            .array [
              .element "Label" (some (uuid n)) [("color", .str "blue")]
                [.value (.str "flight")],
              .element "Label" (some (uuid (n + 1))) [("color", .str "blue")]
                [.value (.str "city")]]]]], n + 2) :=
  rfl

/-- C7. One run calls `uuid` once for each tag it renders.  When the tags of a
record are a non-empty sequence of length `N`, the run that starts after `n`
calls ends after `n + N` calls and the keys of the chips are, in order, the
tokens of the calls `n`, ..., `n + N - 1`.  When the tags are absent, `null`
or empty, the run makes no call and the card has no chip. -/
theorem uuid_called_once_per_tag (uuid : Nat → String) (log : JSValue) (n : Nat)
    (hlog : log.isNullish = false) (huser : (log.prop "user").isNullish = false) :
    (∀ items, log.prop "tags" = .arr items → items ≠ [] → (∀ t ∈ items, t.isNullish = false) →
      ∃ tree,
        DreamLog uuid log n = .ok (tree, n + items.length) ∧
        tree.labels.length = items.length ∧
        tree.labels.map VNode.key
          = (List.range items.length).map (fun i => some (uuid (n + i)))) ∧
    ((log.prop "tags" = .undefined ∨ log.prop "tags" = .null ∨ log.prop "tags" = .arr []) →
      ∃ tree, DreamLog uuid log n = .ok (tree, n) ∧ tree.labels = []) := by
  refine ⟨?_, ?_⟩
  · intro items htags hne hitems
    refine ⟨_, DreamLog_present uuid n hlog huser htags hne hitems, ?_, ?_⟩
    · rw [labels_cardOf_chipList, length_chipList]
    · rw [labels_cardOf_chipList, keys_chipList]
  · intro htags
    exact ⟨_, DreamLog_absent uuid n hlog huser htags, labels_cardOf_value _ _⟩

/-- The counts of C7 on scenario A, two calls after three earlier ones, and on
scenario C, no call. -/
theorem uuid_called_once_per_tag_witness :
    (∃ tree,
      DreamLog sampleUuid scenarioACode 3 = .ok (tree, 3 + 2) ∧
      tree.labels.length = 2 ∧
      tree.labels.map VNode.key = [some (sampleUuid 3), some (sampleUuid 4)]) ∧
    (∃ tree, DreamLog sampleUuid scenarioC 3 = .ok (tree, 3) ∧ tree.labels = []) :=
  ⟨(uuid_called_once_per_tag sampleUuid scenarioACode 3 rfl rfl).1
      [.obj [("name", .str "flight")], .obj [("name", .str "city")]] rfl
      (List.cons_ne_nil _ _) (by simp [JSValue.isNullish]),
    (uuid_called_once_per_tag sampleUuid scenarioC 3 rfl rfl).2 (Or.inl rfl)⟩

/-- C8. When the `uuid` service never returns the same token twice, the chips
that one run makes for a non-empty sequence of tags all have a key and no two
of them have the same key, whatever the names of the tags. -/
theorem chip_keys_distinct (uuid : Nat → String) (log : JSValue) (n : Nat)
    (items : List JSValue) (huuid : Function.Injective uuid)
    (hlog : log.isNullish = false) (huser : (log.prop "user").isNullish = false)
    (htags : log.prop "tags" = .arr items) (hne : items ≠ [])
    (hitems : ∀ t ∈ items, t.isNullish = false) :
    ∃ tree m,
      DreamLog uuid log n = .ok (tree, m) ∧
      tree.labels.length = items.length ∧
      (∀ c ∈ tree.labels, ∃ key, c.key = some key) ∧
      (tree.labels.map VNode.key).Nodup := by
  have hkeys : (cardOf log (.array (chipList uuid items n))).labels.map VNode.key
      = (List.range items.length).map (fun i => some (uuid (n + i))) := by
    rw [labels_cardOf_chipList, keys_chipList]
  refine ⟨_, _, DreamLog_present uuid n hlog huser htags hne hitems, ?_, ?_, ?_⟩
  · rw [labels_cardOf_chipList, length_chipList]
  · intro c hc
    have hmem : c.key ∈ (cardOf log (.array (chipList uuid items n))).labels.map VNode.key :=
      List.mem_map_of_mem _ hc
    rw [hkeys] at hmem
    obtain ⟨i, _, hi⟩ := List.mem_map.mp hmem
    exact ⟨uuid (n + i), hi.symm⟩
  · rw [hkeys]
    refine (List.nodup_range _).map ?_
    intro a b hab
    have := huuid (Option.some.inj hab)
    omega

/-- Two tags of the same name get two chips with different keys. -/
theorem chip_keys_distinct_witness :
    ∃ tree m,
      DreamLog sampleUuid twinTags 0 = .ok (tree, m) ∧
      tree.labels.length = 2 ∧
      (∀ c ∈ tree.labels, ∃ key, c.key = some key) ∧
      (tree.labels.map VNode.key).Nodup :=
  chip_keys_distinct sampleUuid twinTags 0 [.obj [("name", .str "a")], .obj [("name", .str "a")]]
    sampleUuid_injective rfl rfl rfl (List.cons_ne_nil _ _) (by simp [JSValue.isNullish])

/-- C9. The keys do not depend on the tags.  Two records whose tags are
non-empty sequences of the same length, rendered against the same `uuid`
service after the same number of calls, get the same keys in the same order,
whatever the names of their tags and whatever else the records hold; the keys
are the tokens of the service and nothing else. -/
theorem chip_keys_independent_of_tags (uuid : Nat → String) (log₁ log₂ : JSValue) (n : Nat)
    (items₁ items₂ : List JSValue)
    (hlog₁ : log₁.isNullish = false) (huser₁ : (log₁.prop "user").isNullish = false)
    (htags₁ : log₁.prop "tags" = .arr items₁) (hne₁ : items₁ ≠ [])
    (hitems₁ : ∀ t ∈ items₁, t.isNullish = false)
    (hlog₂ : log₂.isNullish = false) (huser₂ : (log₂.prop "user").isNullish = false)
    (htags₂ : log₂.prop "tags" = .arr items₂) (hne₂ : items₂ ≠ [])
    (hitems₂ : ∀ t ∈ items₂, t.isNullish = false)
    (hlen : items₁.length = items₂.length) :
    ∃ tree₁ tree₂ m,
      DreamLog uuid log₁ n = .ok (tree₁, m) ∧
      DreamLog uuid log₂ n = .ok (tree₂, m) ∧
      tree₁.labels.map VNode.key = tree₂.labels.map VNode.key ∧
      tree₁.labels.map VNode.key
        = (List.range items₁.length).map (fun i => some (uuid (n + i))) := by
  refine ⟨cardOf log₁ (.array (chipList uuid items₁ n)),
    cardOf log₂ (.array (chipList uuid items₂ n)), n + items₁.length,
    DreamLog_present uuid n hlog₁ huser₁ htags₁ hne₁ hitems₁, ?_, ?_, ?_⟩
  · rw [hlen]
    exact DreamLog_present uuid n hlog₂ huser₂ htags₂ hne₂ hitems₂
  · rw [labels_cardOf_chipList, keys_chipList, labels_cardOf_chipList, keys_chipList, hlen]
  · rw [labels_cardOf_chipList, keys_chipList]

/-- Scenario A and the record with twin tags, two tags each, get the same keys. -/
theorem chip_keys_independent_of_tags_witness :
    ∃ tree₁ tree₂ m,
      DreamLog sampleUuid scenarioACode 0 = .ok (tree₁, m) ∧
      DreamLog sampleUuid twinTags 0 = .ok (tree₂, m) ∧
      tree₁.labels.map VNode.key = tree₂.labels.map VNode.key ∧
      tree₁.labels.map VNode.key
        = (List.range 2).map (fun i => some (sampleUuid (0 + i))) :=
  chip_keys_independent_of_tags sampleUuid scenarioACode twinTags 0
    [.obj [("name", .str "flight")], .obj [("name", .str "city")]]
    [.obj [("name", .str "a")], .obj [("name", .str "a")]]
    rfl rfl rfl (List.cons_ne_nil _ _) (by simp [JSValue.isNullish])
    rfl rfl rfl (List.cons_ne_nil _ _) (by simp [JSValue.isNullish]) rfl

/-- C10. Every chip is blue.  For a record whose tags are a non-empty
sequence, each chip of the card has `color` as its only prop apart from the
key, with the value `"blue"`, whatever the tag and whatever the record. -/
theorem chips_are_blue (uuid : Nat → String) (log : JSValue) (n : Nat)
    (items : List JSValue)
    (hlog : log.isNullish = false) (huser : (log.prop "user").isNullish = false)
    (htags : log.prop "tags" = .arr items) (hne : items ≠ [])
    (hitems : ∀ t ∈ items, t.isNullish = false) :
    ∃ tree m,
      DreamLog uuid log n = .ok (tree, m) ∧
      tree.labels.length = items.length ∧
      ∀ c ∈ tree.labels,
        c.props = [("color", .str "blue")] ∧ c.props.lookup "color" = some (.str "blue") := by
  refine ⟨_, _, DreamLog_present uuid n hlog huser htags hne hitems, ?_, ?_⟩
  · rw [labels_cardOf_chipList, length_chipList]
  · intro c hc
    rw [labels_cardOf_chipList] at hc
    have hprops := props_of_mem_chipList uuid items n c hc
    exact ⟨hprops, by rw [hprops]; rfl⟩

/-- The two chips of scenario A are blue. -/
theorem chips_are_blue_witness :
    ∃ tree m,
      DreamLog sampleUuid scenarioACode 0 = .ok (tree, m) ∧
      tree.labels.length = 2 ∧
      ∀ c ∈ tree.labels,
        c.props = [("color", .str "blue")] ∧ c.props.lookup "color" = some (.str "blue") :=
  chips_are_blue sampleUuid scenarioACode 0
    [.obj [("name", .str "flight")], .obj [("name", .str "city")]]
    rfl rfl rfl (List.cons_ne_nil _ _) (by simp [JSValue.isNullish])

end DreamLogger
